import Mathlib

/-!
Verification of the durable JSON-file storage layer of the task manager
(`src/backend/app/storage/atomic.py`, `src/backend/app/storage/json_file.py`,
and the entity models in `src/backend/app/models/`).

The Python code is shallowly embedded: JSON values become the inductive
`JVal`, Python dicts become association lists with first-key-wins lookup and
in-place replacement on assignment, and each storage operation becomes a pure
function from the on-disk document to the resulting document together with a
flag recording whether a write was performed and the operation's result
(`.ok` for a normal return, `.storageError` for a raised `StorageError`).
-/

set_option autoImplicit false

/-- JSON values, the contents of the persisted documents.  Python `None` /
JSON `null` is `JVal.null`; numbers are modelled as integers (no claim
exercises fractional numbers). -/
inductive JVal where
  | null
  | bool (b : Bool)
  | num (n : Int)
  | str (s : String)
  | arr (elems : List JVal)
  | obj (fields : List (String × JVal))
deriving Repr

namespace PyDict

/-- Python `dict.get(k)` on an association list: the stores' documents come
from `json.load`, whose dicts have unique keys, so first-match lookup is
exact. -/
def dictGet : List (String × JVal) → String → Option JVal
  | [], _ => none
  | (k, v) :: rest, key => if k = key then some v else dictGet rest key

/-- Python `d[k] = v`: replaces the value of an existing key in place
(keeping insertion order), otherwise appends the new key at the end. -/
def dictSet : List (String × JVal) → String → JVal → List (String × JVal)
  | [], key, v => [(key, v)]
  | (k, w) :: rest, key, v =>
    if k = key then (k, v) :: rest else (k, w) :: dictSet rest key v

theorem dictGet_dictSet_self (fs : List (String × JVal)) (k : String) (v : JVal) :
    dictGet (dictSet fs k v) k = some v := by
  induction fs with
  | nil => simp [dictGet, dictSet]
  | cons p rest ih =>
    obtain ⟨k0, w⟩ := p
    by_cases h : k0 = k
    · simp [dictGet, dictSet, h]
    · simp [dictGet, dictSet, h, ih]

theorem dictGet_dictSet_ne (fs : List (String × JVal)) (k k' : String) (v : JVal)
    (h : k ≠ k') : dictGet (dictSet fs k v) k' = dictGet fs k' := by
  induction fs with
  | nil => simp [dictGet, dictSet, h]
  | cons p rest ih =>
    obtain ⟨k0, w⟩ := p
    by_cases h0 : k0 = k
    · subst h0
      simp [dictGet, dictSet, h]
    · simp [dictGet, dictSet, h0, ih]

end PyDict

open PyDict

/-- Python truthiness (`if x:`) of a JSON-shaped value. -/
def pyTruthy : JVal → Bool
  | .null => false
  | .bool b => b
  | .num n => decide (n ≠ 0)
  | .str s => decide (s ≠ "")
  | .arr xs => !xs.isEmpty
  | .obj fs => !fs.isEmpty

/-- Python `str(x)` for the values that can appear as identifiers.  The
stores only ever compare string identifiers, so the renderings of
containers are schematic (Python would use `repr` of the elements; no
document in this repository stores a container under an `id` key). -/
def pyStr : JVal → String
  | .null => "None"
  | .bool true => "True"
  | .bool false => "False"
  | .num n => toString n
  | .str s => s
  | .arr _ => "[...]"
  | .obj _ => "{...}"

mutual

/-- Python `==` on JSON-shaped values: numeric cross-equality of booleans
and integers, element-wise equality of lists, and key-set-insensitive
equality of dicts (documents read from JSON have unique keys). -/
def pyEq : JVal → JVal → Bool
  | .null, .null => true
  | .bool a, .bool b => a == b
  | .bool a, .num n => (if a then (1 : Int) else 0) == n
  | .num n, .bool a => n == (if a then (1 : Int) else 0)
  | .num a, .num b => a == b
  | .str a, .str b => a == b
  | .arr as, .arr bs => pyEqList as bs
  | .obj as, .obj bs => as.length == bs.length && pyEqFields as bs
  | _, _ => false

def pyEqList : List JVal → List JVal → Bool
  | [], [] => true
  | a :: as, b :: bs => pyEq a b && pyEqList as bs
  | _, _ => false

def pyEqFields : List (String × JVal) → List (String × JVal) → Bool
  | [], _ => true
  | (k, v) :: rest, bs =>
    (match dictGet bs k with
     | some w => pyEq v w
     | none => false) && pyEqFields rest bs

end

/-! ## Entity models (`src/backend/app/models/`)

Pydantic `datetime` values are modelled as opaque strings: `json.dump`
serializes them via `default=str` and pydantic parses the resulting text
back, so at the granularity of these claims a timestamp round-trips as its
string rendering.  The `default_factory` defaults (`uuid4()` for `Task.id`,
`datetime.utcnow()` for the timestamps) are nondeterministic in Python and
are modelled as fixed constants; no claim exercises records that omit these
fields. -/

namespace App

/-- Stand-in for a `uuid4()` generated when a parsed record omits `id`. -/
def uuid4_default : String := "00000000-0000-4000-8000-000000000000"

/-- Stand-in for a `datetime.utcnow()` generated when a parsed record omits
a timestamp field. -/
def utcnow_default : String := "1970-01-01T00:00:00"

/-- `app.models.task.Task`. -/
structure Task where
  id : String
  title : String
  notes : String
  status : String
  priority : String
  due_date : Option String
  project : String
  created_at : String
  updated_at : String
deriving DecidableEq, Repr

/-- `app.models.project.Project`. -/
structure Project where
  name : String
  created_at : String
deriving DecidableEq, Repr

/-- `app.models.settings.Settings`.  A bare `Settings()` takes both
defaults: `theme="light"`, `sort_order="created"`. -/
structure Settings where
  theme : String
  sort_order : String
deriving DecidableEq, Repr

/-- Default-constructed `Settings()`. -/
def Settings.defaults : Settings := ⟨"light", "created"⟩

/-- A pydantic `str` field with a default: absent means the default, a JSON
string is taken as-is, and any other value fails validation. -/
def strFieldD (fs : List (String × JVal)) (k : String) (dflt : String) : Option String :=
  match dictGet fs k with
  | none => some dflt
  | some (.str s) => some s
  | some _ => none

/-- A required pydantic `str` field (no default): absent or non-string
fails validation. -/
def strFieldReq (fs : List (String × JVal)) (k : String) : Option String :=
  match dictGet fs k with
  | some (.str s) => some s
  | _ => none

/-- A pydantic `datetime` field with a generated default, modelled as a
string (see the section comment): absent gives the stand-in constant,
strings are accepted, anything else fails. -/
def dtFieldD (fs : List (String × JVal)) (k : String) : Option String :=
  match dictGet fs k with
  | none => some utcnow_default
  | some (.str s) => some s
  | some _ => none

/-- `Task(**item)`: pydantic validation of a raw record, including the
`mode='before'` validator that rewrites the legacy status `"active"` to
`"pending"`.  Returns `none` when validation raises (the store then skips
the record).  Applied to a non-dict value, `Task(**item)` raises, hence
`none`. -/
def Task.validate : JVal → Option Task
  | .obj fs0 =>
    -- `_validate_before`: legacy "active" status becomes "pending".
    let fs := match dictGet fs0 "status" with
      | some (.str s) => if s = "active" then dictSet fs0 "status" (.str "pending") else fs0
      | _ => fs0
    match strFieldD fs "id" uuid4_default, strFieldReq fs "title", strFieldD fs "notes" "",
          strFieldD fs "status" "pending", strFieldD fs "priority" "medium" with
    | some id, some title, some notes, some status, some priority =>
      if title.length ≥ 1 then
        match dictGet fs "due_date" with
        | none => mk9 id title notes status priority none fs
        | some .null => mk9 id title notes status priority none fs
        | some (.str s) => mk9 id title notes status priority (some s) fs
        | some _ => none
      else none
    | _, _, _, _, _ => none
  | _ => none
where
  /-- Assembles the task once the scalar fields are validated. -/
  mk9 (id title notes status priority : String) (due : Option String)
      (fs : List (String × JVal)) : Option Task :=
    match strFieldD fs "project" "Inbox", dtFieldD fs "created_at", dtFieldD fs "updated_at" with
    | some project, some created_at, some updated_at =>
      some ⟨id, title, notes, status, priority, due, project, created_at, updated_at⟩
    | _, _, _ => none

/-- `task.model_dump()` followed by `json.dump(..., default=str)`: the
serialized record, fields in declaration order. -/
def Task.to_dict (t : Task) : List (String × JVal) :=
  [("id", .str t.id), ("title", .str t.title), ("notes", .str t.notes),
   ("status", .str t.status), ("priority", .str t.priority),
   ("due_date", match t.due_date with | none => .null | some s => .str s),
   ("project", .str t.project),
   ("created_at", .str t.created_at), ("updated_at", .str t.updated_at)]

/-- `Project(**item)`: `name` is required with `min_length=1`, `created_at`
defaults to `utcnow()`. -/
def Project.validate : JVal → Option Project
  | .obj fs =>
    match strFieldReq fs "name", dtFieldD fs "created_at" with
    | some name, some created_at =>
      if name.length ≥ 1 then some ⟨name, created_at⟩ else none
    | _, _ => none
  | _ => none

/-- `project.model_dump()` serialized. -/
def Project.to_dict (p : Project) : List (String × JVal) :=
  [("name", .str p.name), ("created_at", .str p.created_at)]

/-- `Settings(**item)`: both fields default, both constrained by a regex
(`^(light|dark)$` and `^(priority|due_date|created)$`). -/
def Settings.validate : JVal → Option Settings
  | .obj fs =>
    match strFieldD fs "theme" "light", strFieldD fs "sort_order" "created" with
    | some theme, some sort_order =>
      if (theme = "light" ∨ theme = "dark")
          ∧ (sort_order = "priority" ∨ sort_order = "due_date" ∨ sort_order = "created") then
        some ⟨theme, sort_order⟩
      else none
    | _, _ => none
  | _ => none

/-- `settings.model_dump()` serialized. -/
def Settings.to_dict (s : Settings) : List (String × JVal) :=
  [("theme", .str s.theme), ("sort_order", .str s.sort_order)]

/-- The capabilities `JSONFileStore` uses from its `model_class` parameter:
`getattr(item, 'id', None)`, `model_dump`, and `model_class(**item)`. -/
structure PyModel (T : Type) where
  getattr_id : T → Option JVal
  to_dict : T → List (String × JVal)
  validate : JVal → Option T

/-- The Task store's model parameter: tasks expose a string `id`. -/
def taskModel : PyModel Task :=
  { getattr_id := fun t => some (.str t.id)
    to_dict := Task.to_dict
    validate := Task.validate }

/-- The Project store's model parameter: `Project` has no `id` attribute,
so `getattr(item, 'id', None)` is `None`. -/
def projectModel : PyModel Project :=
  { getattr_id := fun _ => none
    to_dict := Project.to_dict
    validate := Project.validate }

/-! ## The atomic file layer (`src/backend/app/storage/atomic.py`) -/

/-- The observable content of one file on disk. -/
inductive FileContent where
  | valid (doc : JVal)
  | corrupt
  | unreadable
  | undecodable
deriving Repr

/-- A Python call that either returns normally or lets an exception
escape. -/
inductive PyOutcome (A : Type) where
  | ok (a : A)
  | raised (exc : String)
deriving Repr

/-- `read_json_file(filepath, default)`.  `file = none` models a missing
path; `corrupt` a readable file whose decoded text makes `json.load`
raise `JSONDecodeError`; `unreadable` a file whose open/read raises
`IOError`.  Those three return `default` (or `{}` when no default was
passed).  `undecodable` models a readable file whose bytes the text
stream cannot decode: there `json.load` raises `UnicodeDecodeError`,
which is neither a `JSONDecodeError` nor an `IOError`, so neither
`except` clause catches it and the exception escapes the function. -/
def read_json_file (file : Option FileContent) (dflt : Option JVal) : PyOutcome JVal :=
  match file with
  | none => .ok (dflt.getD (.obj []))
  | some (.valid d) => .ok d
  | some .corrupt => .ok (dflt.getD (.obj []))
  | some .unreadable => .ok (dflt.getD (.obj []))
  | some .undecodable => .raised "UnicodeDecodeError"

/-! ## JSONFileStore (`src/backend/app/storage/json_file.py`)

Every operation re-reads the document from disk, works on the in-memory
copy and (when it mutates) writes the whole document back through
`atomic_write`; no state survives between calls.  Each operation is
therefore a pure function of the current document.  The outcome records
the document on disk after the call, whether `_write_data` was invoked,
and the returned value or raised `StorageError`. -/

/-- A value returned normally, or a raised `StorageError`. -/
inductive StoreResult (T : Type) where
  | ok (item : T)
  | storageError (msg : String)
deriving DecidableEq, Repr

/-- Outcome of one store operation on the current on-disk document. -/
structure StoreOutcome (R : Type) where
  doc : JVal
  wrote : Bool
  result : R

namespace JSONFileStore

/-- `data.get(k)` on the parsed document.  At every modelled use site the
document is a JSON object (a non-object would already have raised
`AttributeError` in Python). -/
def jGet : JVal → String → Option JVal
  | .obj fs, k => dictGet fs k
  | _, _ => none

/-- `data.get(k, dflt)`. -/
def jGetD (data : JVal) (k : String) (dflt : JVal) : JVal :=
  (jGet data k).getD dflt

/-- `data[k] = v` on the parsed document (object documents only, as above). -/
def jSet : JVal → String → JVal → JVal
  | .obj fs, k, v => .obj (dictSet fs k v)
  | d, _, _ => d

/-- `items = data.get(self.collection_key, [])`: the list the operations
iterate over.  Collection values in this repository are always JSON
arrays; iterating anything else raises in Python and is outside the
model. -/
def getItems (data : JVal) (key : String) : List JVal :=
  match jGetD data key (.arr []) with
  | .arr xs => xs
  | _ => []

/-- `existing.get(f)` for raw dict items, `getattr(existing, f, None)` for
non-dict raw values: absent keys, non-dict items and an explicit JSON
`null` all give Python `None`, modelled as `none`. -/
def rawGet (field : String) : JVal → Option JVal
  | .obj fs =>
    (match dictGet fs field with
     | some .null => none
     | o => o)
  | _ => none

/-- `JSONFileStore._normalize_item`: a dict record whose `status` equals
the legacy value `"active"` is copied with `status` set to `"pending"`;
every other record is returned unchanged. -/
def normalize_item (item : JVal) : JVal :=
  match item with
  | .obj fs =>
    (match dictGet fs "status" with
     | some (.str s) =>
        if s = "active" then .obj (dictSet fs "status" (.str "pending")) else .obj fs
     | _ => .obj fs)
  | v => v

/-- `JSONFileStore._parse_items`: normalize each record, then attempt
`model_class(**item)`; records that fail validation are silently
skipped. -/
def parse_items {T : Type} (M : PyModel T) (xs : List JVal) : List T :=
  xs.filterMap (fun item => M.validate (normalize_item item))

/-- `JSONFileStore.get_all` as a function of the current document. -/
def get_all {T : Type} (M : PyModel T) (key : String) (data : JVal) : List T :=
  parse_items M (getItems data key)

/-- `JSONFileStore.count`: `len(self.get_all())`. -/
def count {T : Type} (M : PyModel T) (key : String) (data : JVal) : Nat :=
  (get_all M key data).length

/-- The comparison inside `add`/`update`/`delete` loops:
`existing_id is not None and str(existing_id) == str(item_id)`. -/
def idMatches (idv : JVal) (existing : JVal) : Bool :=
  match rawGet "id" existing with
  | some eid => pyStr eid == pyStr idv
  | none => false

/-- `JSONFileStore.add`: duplicate check on the `id` attribute (only when
it is present and truthy), then append the serialized item and write. -/
def add {T : Type} (M : PyModel T) (key : String) (data : JVal) (item : T) :
    StoreOutcome (StoreResult T) :=
  let items := getItems data key
  let appended : StoreOutcome (StoreResult T) :=
    { doc := jSet data key (.arr (items ++ [.obj (M.to_dict item)]))
      wrote := true
      result := .ok item }
  match M.getattr_id item with
  | some idv =>
    -- `if item_id:` — the check is skipped entirely for falsy ids
    if pyTruthy idv then
      if items.any (idMatches idv) then
        { doc := data
          wrote := false
          result := .storageError ("Item with ID " ++ pyStr idv ++ " already exists") }
      else appended
    else appended
  | none => appended

/-- The replacement loop of `update`: `items[i] = serialized` at the first
index whose raw `id` matches, `none` when no index matches. -/
def replaceFirst (idv : JVal) (newItem : JVal) : List JVal → Option (List JVal)
  | [] => none
  | x :: xs =>
    if idMatches idv x then some (newItem :: xs)
    else (replaceFirst idv newItem xs).map (x :: ·)

/-- `JSONFileStore.update`: requires a truthy `id` attribute, replaces the
first matching raw item in place and writes, or raises without writing. -/
def update {T : Type} (M : PyModel T) (key : String) (data : JVal) (item : T) :
    StoreOutcome (StoreResult T) :=
  let items := getItems data key
  match M.getattr_id item with
  | none =>
    { doc := data, wrote := false
      result := .storageError "Item must have an id attribute" }
  | some idv =>
    if pyTruthy idv then
      match replaceFirst idv (.obj (M.to_dict item)) items with
      | some items2 =>
        { doc := jSet data key (.arr items2), wrote := true, result := .ok item }
      | none =>
        { doc := data, wrote := false
          result := .storageError ("Item with ID " ++ pyStr idv ++ " not found") }
    else
      { doc := data, wrote := false
        result := .storageError "Item must have an id attribute" }

/-- The keep test in `delete`'s loop: keep the item when
`existing_id is None or str(existing_id) != str(item_id)`. -/
def keepItem (item_id : String) (it : JVal) : Bool :=
  match rawGet "id" it with
  | none => true
  | some eid => pyStr eid != item_id

/-- `JSONFileStore.delete`: keep the items whose raw `id` is `None` or
differs from `str(item_id)`; write back only if something was dropped. -/
def delete (key : String) (data : JVal) (item_id : String) : StoreOutcome Bool :=
  let items := getItems data key
  let filtered := items.filter (keepItem item_id)
  let deleted := decide (filtered.length < items.length)
  if deleted then
    { doc := jSet data key (.arr filtered), wrote := true, result := true }
  else
    { doc := data, wrote := false, result := false }

/-- The keep test in `delete_by_field`'s loop: keep the item when
`existing_value != value` under Python `==` (`item.get(field)` is Python
`None`, i.e. JSON `null`, for absent fields and non-dict items). -/
def keepField (field : String) (value : JVal) (it : JVal) : Bool :=
  !(pyEq ((rawGet field it).getD .null) value)

/-- `JSONFileStore.delete_by_field`: keep the items whose field value
differs from `value`; write back only if something was dropped; return
how many were dropped. -/
def delete_by_field (key field : String) (data : JVal) (value : JVal) : StoreOutcome Nat :=
  let items := getItems data key
  let filtered := items.filter (keepField field value)
  let deleted := decide (filtered.length < items.length)
  let cnt := items.length - filtered.length
  if deleted then
    { doc := jSet data key (.arr filtered), wrote := true, result := cnt }
  else
    { doc := data, wrote := false, result := cnt }

/-- `JSONFileStore.clear`: writes the literal document
`{self.collection_key: []}`, independent of the current document. -/
def clear (key : String) : StoreOutcome Unit :=
  { doc := .obj [(key, .arr [])], wrote := true, result := () }

/-- The default `initial_data` of a store: `{collection_key: []}`. -/
def initialDoc (key : String) : JVal := .obj [(key, .arr [])]

/-- `JSONFileStore._read_data`: `read_json_file(self.filepath,
self.initial_data)` inside `try: ... except Exception: return
self.initial_data`.  The `except` clause is what absorbs the
`UnicodeDecodeError` that `read_json_file` lets escape on an undecodable
file. -/
def read_data (file : Option FileContent) (initial_data : JVal) : JVal :=
  match read_json_file file (some initial_data) with
  | .ok d => d
  | .raised _ => initial_data

/-- `count()` of a store (with the default initial document) over the file
currently on disk. -/
def count_file {T : Type} (M : PyModel T) (key : String) (file : Option FileContent) : Nat :=
  count M key (read_data file (initialDoc key))

end JSONFileStore

/-! ## SingleValueStore (`src/backend/app/storage/json_file.py`) -/

/-- The capabilities `SingleValueStore` uses from its `model_class`:
`model_class(**value)` and the default-constructed `model_class()`. -/
structure SVModel (T : Type) where
  validate : JVal → Option T
  defaults : T

/-- The Settings single-value store's model parameter. -/
def settingsSV : SVModel Settings :=
  { validate := Settings.validate, defaults := Settings.defaults }

namespace SingleValueStore

/-- The document `_ensure_file_exists` writes for a fresh store:
`{"value": None}`. -/
def freshDoc : JVal := .obj [("value", JVal.null)]

/-- `SingleValueStore.get` on the parsed document: a `None` value (absent
key or JSON `null`) gives `model_class()`; otherwise `model_class(**value)`
is attempted and any validation failure falls back to `model_class()`
(a non-dict value raises at `**value`, hence also falls back). -/
def get {T : Type} (M : SVModel T) (data : JVal) : T :=
  match JSONFileStore.jGet data "value" with
  | none => M.defaults
  | some .null => M.defaults
  | some v => (M.validate v).getD M.defaults

/-- `get()` over the file on disk: `_read_data` reads with default
`{"value": None}` and, unlike the collection store's `_read_data`, has no
`except Exception` wrapper, so an exception escaping `read_json_file`
(an undecodable file) escapes `get()` as well. -/
def get_file {T : Type} (M : SVModel T) (file : Option FileContent) : PyOutcome T :=
  match read_json_file file (some freshDoc) with
  | .ok data => .ok (get M data)
  | .raised e => .raised e

end SingleValueStore

/-! ## Step model of `atomic_write` (for atomicity and cleanup claims)

`atomic_write(filepath, data)` touches three files: the target, the temp
file `mkstemp` creates in the same directory (a fresh path, distinct from
the other two), and the sibling lock file `filepath + '.lock'`.  The state
of these three files is the whole footprint of the function. -/

/-- The temp file: absent, freshly created by `mkstemp`, or holding the
serialized (and fsynced) document. -/
inductive TempState where
  | absent
  | empty
  | written (d : JVal)
deriving Repr

/-- The footprint of one `atomic_write` invocation. -/
structure WriterState where
  target : Option FileContent
  temp : TempState
  lockFile : Bool
deriving Repr

/-- The successive effects of an uncontended, failure-free
`atomic_write` run, in source order. -/
inductive AWStep where
  | mkstemp        -- `tempfile.mkstemp(dir=..., suffix='.tmp')` + `os.close(fd)`
  | openLockFile   -- `open(filepath + '.lock', 'w')`
  | acquireLock    -- `fcntl.flock(..., LOCK_EX | LOCK_NB)` succeeding
  | writeTemp      -- `json.dump` to the temp file, `flush`, `os.fsync`
  | renameOver     -- `os.rename(temp_path, filepath)`
  | releaseLock    -- `fcntl.flock(..., LOCK_UN)`; `lock_fd.close()`
  | removeLockFile -- `os.remove(lock_path)` in the `finally` block
deriving DecidableEq, Repr

/-- Effect of one step on the three-file footprint. -/
def awStep (d : JVal) (s : WriterState) : AWStep → WriterState
  | .mkstemp => { s with temp := .empty }
  | .openLockFile => { s with lockFile := true }
  | .acquireLock => s
  | .writeTemp => { s with temp := .written d }
  | .renameOver => { s with target := some (.valid d), temp := .absent }
  | .releaseLock => s
  | .removeLockFile => { s with lockFile := false }

/-- The full uncontended, failure-free run of `atomic_write`, in source
order; interrupting the process after `k` steps leaves the state
`awRun d s (awHappyPath.take k)`. -/
def awHappyPath : List AWStep :=
  [.mkstemp, .openLockFile, .acquireLock, .writeTemp, .renameOver,
   .releaseLock, .removeLockFile]

/-- Run a prefix of the steps from state `s`. -/
def awRun (d : JVal) (s : WriterState) (steps : List AWStep) : WriterState :=
  steps.foldl (awStep d) s

/-- How `atomic_write` terminates. -/
inductive AWResult where
  | ok
  | fileLockError    -- raised on lock contention
  | atomicWriteError -- raised when an `IOError`/`OSError` escapes the write
deriving DecidableEq, Repr

/-- The three control-flow paths of `atomic_write`, as a function of
whether another process holds the lock (`contention`) and whether the
temp-file write raises an `IOError` (`writeFails`):

* contention: `mkstemp` and `open(lock_path, 'w')` have already happened;
  `flock` raises `BlockingIOError`, which is re-raised as `FileLockError`.
  `FileLockError` is not an `(IOError, OSError)`, the inner `try/finally`
  has not been entered, and the outer `except` does not match, so no
  cleanup of any kind runs on this path;
* write failure: the inner `finally` releases the lock, removes the temp
  file and removes the lock file, then the outer `except` re-raises as
  `AtomicWriteError`;
* success: rename makes the new document visible, then the `finally`
  releases the lock and removes the lock file (the temp file was already
  consumed by the rename). -/
def atomic_write_run (d : JVal) (contention writeFails : Bool) (s : WriterState) :
    WriterState × AWResult :=
  let s1 : WriterState := { s with temp := .empty, lockFile := true }
  if contention then
    (s1, .fileLockError)
  else if writeFails then
    ({ s1 with temp := .absent, lockFile := false }, .atomicWriteError)
  else
    ({ s1 with target := some (.valid d), temp := .absent, lockFile := false }, .ok)

/-! ## Helper lemmas -/

theorem str_len_ge_one (s : String) (h : s ≠ "") : s.length ≥ 1 := by
  rcases s with ⟨l⟩
  cases l with
  | nil => simp at h
  | cons a l => simp [String.length]

/-- Round trip for tasks: a serialized task re-validates to itself, as long
as its title is non-empty (pydantic `min_length=1`) and its status is not
the legacy `"active"` (which the before-validator rewrites). -/
theorem task_validate_to_dict (t : Task) (h1 : t.title ≠ "") (h2 : t.status ≠ "active") :
    Task.validate (JSONFileStore.normalize_item (.obj t.to_dict)) = some t := by
  obtain ⟨id, title, notes, status, priority, due, project, ca, ua⟩ := t
  simp only at h1 h2
  have htitle : title.length ≥ 1 := str_len_ge_one _ h1
  cases due <;>
    simp [JSONFileStore.normalize_item, Task.validate, Task.to_dict, dictGet, h2,
          strFieldD, strFieldReq, dtFieldD, htitle, Task.validate.mk9]

/-- Round trip for projects: a serialized project re-validates to itself,
as long as its name is non-empty. -/
theorem project_validate_to_dict (p : Project) (h1 : p.name ≠ "") :
    Project.validate (JSONFileStore.normalize_item (.obj p.to_dict)) = some p := by
  obtain ⟨name, ca⟩ := p
  simp only at h1
  have hname : name.length ≥ 1 := str_len_ge_one _ h1
  simp [JSONFileStore.normalize_item, Project.validate, Project.to_dict, dictGet,
        strFieldReq, dtFieldD, hname]

/-- The duplicate test against a serialized task compares the ids as
strings. -/
theorem idMatches_to_dict (t0 t : Task) :
    JSONFileStore.idMatches (.str t.id) (.obj t0.to_dict) = (t0.id == t.id) := by
  simp [JSONFileStore.idMatches, JSONFileStore.rawGet, Task.to_dict, dictGet, pyStr]

/-- Reading the collection back after `data[key] = items` yields exactly
the assigned list. -/
theorem getItems_jSet (fs : List (String × JVal)) (key : String) (L : List JVal) :
    JSONFileStore.getItems (JSONFileStore.jSet (.obj fs) key (.arr L)) key = L := by
  simp [JSONFileStore.getItems, JSONFileStore.jSet, JSONFileStore.jGetD, JSONFileStore.jGet,
        dictGet_dictSet_self]

/-- A key other than the collection key is untouched by `data[key] = items`. -/
theorem jGet_jSet_ne (fs : List (String × JVal)) (key k' : String) (v : JVal)
    (h : k' ≠ key) : JSONFileStore.jGet (JSONFileStore.jSet (.obj fs) key v) k' =
      JSONFileStore.jGet (.obj fs) k' := by
  simp [JSONFileStore.jSet, JSONFileStore.jGet, dictGet_dictSet_ne fs key k' v (Ne.symm h)]

/-- The fresh collection document holds an empty list. -/
theorem getItems_initialDoc (key : String) :
    JSONFileStore.getItems (JSONFileStore.initialDoc key) key = [] := by
  simp [JSONFileStore.getItems, JSONFileStore.initialDoc, JSONFileStore.jGetD,
        JSONFileStore.jGet, dictGet]

/-- Splitting a `filterMap` along a Boolean test on the inputs. -/
theorem length_filterMap_split {α β : Type} (f : α → Option β) (p : α → Bool) (xs : List α) :
    (xs.filterMap f).length =
      ((xs.filter p).filterMap f).length + ((xs.filter (fun a => !(p a))).filterMap f).length := by
  induction xs with
  | nil => simp
  | cons x xs ih =>
    cases hp : p x <;> cases hf : f x <;>
      simp [List.filterMap_cons, hp, hf, ih] <;> omega

/-- Splitting a list's length along a Boolean test. -/
theorem length_filter_split {α : Type} (p : α → Bool) (xs : List α) :
    xs.length = (xs.filter p).length + (xs.filter (fun a => !(p a))).length := by
  induction xs with
  | nil => simp
  | cons x xs ih => cases hp : p x <;> simp [hp, ih] <;> omega

/-- When no raw item matches, the replacement loop of `update` reports
failure. -/
theorem replaceFirst_eq_none (idv newItem : JVal) (l : List JVal)
    (h : l.any (JSONFileStore.idMatches idv) = false) :
    JSONFileStore.replaceFirst idv newItem l = none := by
  induction l with
  | nil => rfl
  | cons x xs ih =>
    simp only [List.any_cons, Bool.or_eq_false_iff] at h
    simp [JSONFileStore.replaceFirst, h.1, ih h.2]

/-- When some raw item matches, the replacement loop of `update` replaces
the first matching index in place. -/
theorem replaceFirst_eq_set (idv newItem : JVal) (l : List JVal)
    (h : l.any (JSONFileStore.idMatches idv) = true) :
    JSONFileStore.replaceFirst idv newItem l =
      some (l.set (l.findIdx (JSONFileStore.idMatches idv)) newItem) := by
  induction l with
  | nil => simp at h
  | cons x xs ih =>
    cases hx : JSONFileStore.idMatches idv x with
    | true => simp [JSONFileStore.replaceFirst, hx, List.findIdx_cons]
    | false =>
      simp only [List.any_cons, hx, Bool.false_or] at h
      simp [JSONFileStore.replaceFirst, hx, List.findIdx_cons, ih h]

/-- Parsing a list of serialized well-formed tasks recovers the tasks. -/
theorem parse_items_map_to_dict (ts : List Task)
    (hwf : ∀ t ∈ ts, t.title ≠ "" ∧ t.status ≠ "active") :
    JSONFileStore.parse_items taskModel (ts.map (fun t => .obj t.to_dict)) = ts := by
  induction ts with
  | nil => rfl
  | cons t ts ih =>
    have ht := hwf t (by simp)
    simp only [List.map_cons, JSONFileStore.parse_items, List.filterMap_cons]
    have : taskModel.validate (JSONFileStore.normalize_item (.obj t.to_dict)) = some t :=
      task_validate_to_dict t ht.1 ht.2
    simp only [taskModel] at this ⊢
    rw [this]
    have := ih (fun t' ht' => hwf t' (by simp [ht']))
    simpa [JSONFileStore.parse_items, taskModel] using this

/-! ## Claims -/

/-- C3 counterexample: the claim says `read(path, default)` returns
`default` on any content that is not valid JSON and never raises.  A
readable file whose bytes cannot be decoded by the text stream makes
`json.load` raise `UnicodeDecodeError`, which is neither a
`JSONDecodeError` nor an `IOError`: neither `except` clause catches it,
so `read_json_file` raises instead of returning the default. -/
theorem C3_counterexample :
    read_json_file (some .undecodable) (some (.obj [("fallback", JVal.bool true)])) =
      .raised "UnicodeDecodeError" :=
  rfl

/-- C3 (amended): `read_json_file(path, default)` returns `default` when
the path is missing, when the decoded text is not valid JSON
(`JSONDecodeError`), or when open/read raises `IOError`; a readable file
whose bytes fail text decoding instead raises `UnicodeDecodeError`
uncaught.  The store-level corollary survives in full: because
`JSONFileStore._read_data` wraps the call in `except Exception`, a
CollectionStore over any non-valid backing file — missing, corrupt,
unreadable, or undecodable — reports `count() == 0` (the initial empty
document's count) instead of raising. -/
theorem C3_read_fallback_amended {T : Type} (M : PyModel T) (key : String)
    (file badfile : Option FileContent) (dflt : JVal)
    (h : file = none ∨ file = some .corrupt ∨ file = some .unreadable)
    (hbad : ∀ d, badfile ≠ some (.valid d)) :
    read_json_file file (some dflt) = .ok dflt ∧
    read_json_file (some .undecodable) (some dflt) = .raised "UnicodeDecodeError" ∧
    JSONFileStore.count_file M key badfile = 0 := by
  refine ⟨by rcases h with h | h | h <;> subst h <;> rfl, rfl, ?_⟩
  have hread : JSONFileStore.read_data badfile (JSONFileStore.initialDoc key) =
      JSONFileStore.initialDoc key := by
    cases badfile with
    | none => rfl
    | some fc =>
      cases fc with
      | valid d => exact absurd rfl (hbad d)
      | corrupt => rfl
      | unreadable => rfl
      | undecodable => rfl
  simp [JSONFileStore.count_file, hread, JSONFileStore.count, JSONFileStore.get_all,
        getItems_initialDoc, JSONFileStore.parse_items]

theorem C3_witness :
    read_json_file (some .corrupt) (some (.obj [("fallback", JVal.bool true)])) =
      .ok (.obj [("fallback", JVal.bool true)]) ∧
    read_json_file (some .undecodable) (some (.obj [("fallback", JVal.bool true)])) =
      .raised "UnicodeDecodeError" ∧
    JSONFileStore.count_file taskModel "items" (some .undecodable) = 0 :=
  C3_read_fallback_amended taskModel "items" (some .corrupt) (some .undecodable)
    (.obj [("fallback", JVal.bool true)]) (Or.inr (Or.inl rfl)) (by simp)

/-- C4: visibility of `atomic_write` is all-or-nothing.  Interrupting the
process after any prefix of steps that stops before the rename (steps 0-4:
temp creation, lock-file creation, lock acquisition, temp write+fsync)
leaves the target file holding the previous document; once the rename has
run (prefixes of length at least 5, in particular the completed run) the
target holds exactly the new valid document — it is never a truncated or
partial document, because only the rename ever touches the target path. -/
theorem C4_atomic_write_visibility (d : JVal) (s : WriterState) (k : Nat) :
    (k ≤ 4 → (awRun d s (awHappyPath.take k)).target = s.target) ∧
    (5 ≤ k → (awRun d s (awHappyPath.take k)).target = some (.valid d)) ∧
    (awRun d s awHappyPath).target = some (.valid d) := by
  refine ⟨?_, ?_, by simp [awRun, awHappyPath, awStep]⟩
  · intro hk
    interval_cases k <;> simp [awRun, awHappyPath, awStep]
  · intro hk
    rcases k with _|_|_|_|_|_|_|n
    · omega
    · omega
    · omega
    · omega
    · omega
    · simp [awRun, awHappyPath, awStep]
    · simp [awRun, awHappyPath, awStep]
    · rw [List.take_of_length_le (by simp [awHappyPath])]
      simp [awRun, awHappyPath, awStep]

theorem C4_witness :
    (awRun (.obj []) ⟨some .corrupt, .absent, false⟩ (awHappyPath.take 3)).target =
      some .corrupt ∧
    (awRun (.obj []) ⟨some .corrupt, .absent, false⟩ (awHappyPath.take 6)).target =
      some (.valid (.obj [])) ∧
    (awRun (.obj []) ⟨some .corrupt, .absent, false⟩ awHappyPath).target =
      some (.valid (.obj [])) := by
  have h3 := C4_atomic_write_visibility (.obj []) ⟨some .corrupt, .absent, false⟩ 3
  have h6 := C4_atomic_write_visibility (.obj []) ⟨some .corrupt, .absent, false⟩ 6
  exact ⟨h3.1 (by omega), h6.2.1 (by omega), h6.2.2⟩

/-- C5 counterexample: on the lock-contention path, `atomic_write` leaves
the already-created temp file in place (`.empty`, not `.absent`) and the
lock file in place, refuting the claim that temp files and lock artifacts
are removed on every failure path: `FileLockError` is raised before the
inner `try/finally` is entered and is not caught by the outer
`except (IOError, OSError)`. -/
theorem C5_counterexample :
    (atomic_write_run (.obj []) true false ⟨none, .absent, false⟩).2 = .fileLockError ∧
    (atomic_write_run (.obj []) true false ⟨none, .absent, false⟩).1.temp = .empty ∧
    (atomic_write_run (.obj []) true false ⟨none, .absent, false⟩).1.lockFile = true :=
  ⟨rfl, rfl, rfl⟩

/-- C5 (amended): the temp file and the lock artifact are removed on the
success path and on the I/O-failure path of the write; the lock-contention
path aborts immediately with `FileLockError`, leaves the target untouched,
but removes neither the temp file it already created nor the lock file. -/
theorem C5_cleanup_amended (d : JVal) (s : WriterState) (writeFails : Bool) :
    ((atomic_write_run d false writeFails s).1.temp = .absent ∧
     (atomic_write_run d false writeFails s).1.lockFile = false) ∧
    ((atomic_write_run d true writeFails s).2 = .fileLockError ∧
     (atomic_write_run d true writeFails s).1.temp = .empty ∧
     (atomic_write_run d true writeFails s).1.lockFile = true ∧
     (atomic_write_run d true writeFails s).1.target = s.target) := by
  cases writeFails <;> simp [atomic_write_run]

/-- C7: `_normalize_item` maps a record whose `status` is `"active"` to the
same record with `status` `"pending"`, returns any record whose `status` is
not `"active"` (in particular one already `"pending"`) unchanged, and is
idempotent on every value. -/
theorem C7_normalization_idempotent (fs : List (String × JVal)) (item : JVal) :
    (dictGet fs "status" = some (.str "active") →
        JSONFileStore.normalize_item (.obj fs) = .obj (dictSet fs "status" (.str "pending"))) ∧
    (dictGet fs "status" ≠ some (.str "active") →
        JSONFileStore.normalize_item (.obj fs) = .obj fs) ∧
    JSONFileStore.normalize_item (JSONFileStore.normalize_item item) =
      JSONFileStore.normalize_item item := by
  refine ⟨?_, ?_, ?_⟩
  · intro h
    simp [JSONFileStore.normalize_item, h]
  · intro h
    unfold JSONFileStore.normalize_item
    cases hg : dictGet fs "status" with
    | none => simp [hg]
    | some v =>
      cases v with
      | str s =>
        have hs : s ≠ "active" := by
          intro hc
          exact h (by rw [hg, hc])
        simp [hg, hs]
      | null => simp [hg]
      | bool b => simp [hg]
      | num n => simp [hg]
      | arr xs => simp [hg]
      | obj fs2 => simp [hg]
  · cases item with
    | null => rfl
    | bool b => rfl
    | num n => rfl
    | str s => rfl
    | arr xs => rfl
    | obj fs0 =>
      unfold JSONFileStore.normalize_item
      cases hg : dictGet fs0 "status" with
      | none => simp [hg]
      | some v =>
        cases v with
        | str s =>
          by_cases hs : s = "active"
          · simp [hg, hs, dictGet_dictSet_self]
          · simp [hg, hs]
        | null => simp [hg]
        | bool b => simp [hg]
        | num n => simp [hg]
        | arr xs => simp [hg]
        | obj fs2 => simp [hg]

theorem C7_witness :
    JSONFileStore.normalize_item (.obj [("status", JVal.str "active")]) =
      .obj [("status", JVal.str "pending")] ∧
    JSONFileStore.normalize_item (.obj [("status", JVal.str "pending")]) =
      .obj [("status", JVal.str "pending")] ∧
    JSONFileStore.normalize_item
        (JSONFileStore.normalize_item (.obj [("status", JVal.str "active")])) =
      JSONFileStore.normalize_item (.obj [("status", JVal.str "active")]) := by
  refine ⟨?_, ?_,
    (C7_normalization_idempotent [] (.obj [("status", JVal.str "active")])).2.2⟩
  · exact (C7_normalization_idempotent [("status", JVal.str "active")] .null).1 rfl
  · refine (C7_normalization_idempotent [("status", JVal.str "pending")] .null).2.1 ?_
    intro h
    simp [dictGet] at h

/-- C9: `SingleValueStore.get()` never reports not-found and never raises
on the cases the claim names — on every parsed document it returns an
entity: a missing or `null` `value`, or a value that fails to validate
(including any non-object value, where `**value` would raise), yields the
default-constructed entity; in particular a fresh store (whose
`_ensure_file_exists` wrote `{"value": null}`, a valid document, so the
read returns normally) yields `Settings` with `theme="light"` and
`sort_order="created"`. -/
theorem C9_single_value_default {T : Type} (M : SVModel T) (data : JVal) :
    SingleValueStore.get_file M (some (.valid SingleValueStore.freshDoc)) = .ok M.defaults ∧
    (JSONFileStore.jGet data "value" = none →
        SingleValueStore.get M data = M.defaults) ∧
    (JSONFileStore.jGet data "value" = some JVal.null →
        SingleValueStore.get M data = M.defaults) ∧
    (∀ v, JSONFileStore.jGet data "value" = some v → M.validate v = none →
        SingleValueStore.get M data = M.defaults) ∧
    SingleValueStore.get_file settingsSV (some (.valid SingleValueStore.freshDoc)) =
      .ok { theme := "light", sort_order := "created" } := by
  refine ⟨rfl, ?_, ?_, ?_, rfl⟩
  · intro h
    simp [SingleValueStore.get, h]
  · intro h
    simp [SingleValueStore.get, h]
  · intro v hv hval
    cases v <;> simp [SingleValueStore.get, hv, hval]

theorem C9_witness :
    SingleValueStore.get settingsSV (.obj [("value", JVal.arr [])]) = Settings.defaults ∧
    SingleValueStore.get_file settingsSV (some (.valid SingleValueStore.freshDoc)) =
      .ok { theme := "light", sort_order := "created" } := by
  have h := C9_single_value_default settingsSV (.obj [("value", JVal.arr [])])
  exact ⟨h.2.2.2.1 (.arr []) rfl rfl, h.2.2.2.2⟩

/-- A projects document already holding one project named `"Personal"`. -/
def dupProjectDoc : JVal :=
  .obj [("projects", .arr [.obj [("name", JVal.str "Personal"), ("created_at", JVal.str "t0")]])]

/-- A second project whose identifier (its name) equals the stored one. -/
def personal2 : Project := ⟨"Personal", "t1"⟩

/-- C1 counterexample: the claim says `add` fails with DuplicateIdentifier
whenever a stored item's identifier (the name, for projects) equals the
new entity's identifier.  On the project store, `add` of a project whose
name equals a stored project's name succeeds, writes, and appends a second
item with the same name: `add` only consults `getattr(item, 'id', None)`,
and `Project` has no `id` attribute. -/
theorem C1_counterexample :
    (JSONFileStore.add projectModel "projects" dupProjectDoc personal2).result =
      .ok personal2 ∧
    (JSONFileStore.add projectModel "projects" dupProjectDoc personal2).wrote = true ∧
    JSONFileStore.getItems
        ((JSONFileStore.add projectModel "projects" dupProjectDoc personal2).doc) "projects" =
      [.obj [("name", JVal.str "Personal"), ("created_at", JVal.str "t0")],
       .obj [("name", JVal.str "Personal"), ("created_at", JVal.str "t1")]] :=
  ⟨rfl, rfl, rfl⟩

/-- C1 (amended): the duplicate check applies only to the entity's `id`
attribute and only when that attribute is truthy.  When the entity has a
truthy id (every `Task` with a non-empty id) and some stored item's raw
`id` equals it as a string, `add` raises `StorageError` ("Item with ID
... already exists") and performs no write, leaving the document
unchanged; in every other case — no stored match, no `id` attribute at
all (`Project`, whose identifying name is never consulted), or a falsy
(empty) id — `add` appends the serialized entity, writes, and returns the
entity unchanged. -/
theorem C1_add_amended {T : Type} (M : PyModel T) (key : String)
    (fs : List (String × JVal)) (item : T) :
    (∀ idv, M.getattr_id item = some idv → pyTruthy idv = true →
        (JSONFileStore.getItems (.obj fs) key).any (JSONFileStore.idMatches idv) = true →
        (JSONFileStore.add M key (.obj fs) item).doc = .obj fs ∧
        (JSONFileStore.add M key (.obj fs) item).wrote = false ∧
        (JSONFileStore.add M key (.obj fs) item).result =
          .storageError ("Item with ID " ++ pyStr idv ++ " already exists")) ∧
    ((∀ idv, M.getattr_id item = some idv → pyTruthy idv = true →
        (JSONFileStore.getItems (.obj fs) key).any (JSONFileStore.idMatches idv) = false) →
        JSONFileStore.getItems ((JSONFileStore.add M key (.obj fs) item).doc) key =
          JSONFileStore.getItems (.obj fs) key ++ [.obj (M.to_dict item)] ∧
        (JSONFileStore.add M key (.obj fs) item).wrote = true ∧
        (JSONFileStore.add M key (.obj fs) item).result = .ok item) := by
  constructor
  · intro idv hid htr hany
    simp [JSONFileStore.add, hid, htr, hany]
  · intro hno
    unfold JSONFileStore.add
    cases hid : M.getattr_id item with
    | none => simp [getItems_jSet]
    | some idv =>
      cases htr : pyTruthy idv with
      | false => simp [htr, getItems_jSet]
      | true => simp [htr, hno idv hid htr, getItems_jSet]

/-- A stored task with id `"a1"`. -/
def wtask1 : Task := ⟨"a1", "Task one", "", "pending", "high", none, "Inbox", "t0", "t0"⟩

theorem C1_witness :
    (JSONFileStore.add taskModel "items"
        (.obj [("items", .arr [.obj wtask1.to_dict])]) wtask1).doc =
      .obj [("items", .arr [.obj wtask1.to_dict])] ∧
    (JSONFileStore.add taskModel "items"
        (.obj [("items", .arr [.obj wtask1.to_dict])]) wtask1).wrote = false ∧
    (JSONFileStore.add taskModel "items"
        (.obj [("items", .arr [.obj wtask1.to_dict])]) wtask1).result =
      .storageError "Item with ID a1 already exists" :=
  (C1_add_amended taskModel "items" [("items", .arr [.obj wtask1.to_dict])] wtask1).1
    (.str "a1") rfl rfl rfl

/-- C2 counterexample: the claim says that when a stored item's identifier
matches the entity's identifier, `update` replaces that item in place.  On
the project store, a stored project named `"Personal"` matches the updated
entity's identifier, yet `update` raises `StorageError` ("Item must have
an 'id' attribute") and performs no write: `update` requires a truthy `id`
attribute, which `Project` does not have.  (The same input also shows the
NotFound half cannot apply to projects.) -/
theorem C2_counterexample :
    (JSONFileStore.update projectModel "projects" dupProjectDoc personal2).result =
      .storageError "Item must have an id attribute" ∧
    (JSONFileStore.update projectModel "projects" dupProjectDoc personal2).wrote = false ∧
    (JSONFileStore.update projectModel "projects" dupProjectDoc personal2).doc =
      dupProjectDoc :=
  ⟨rfl, rfl, rfl⟩

/-- C2 (amended): for an entity with a truthy `id` attribute (every
`Task` with a non-empty id): when no stored item's raw `id` matches it,
`update` raises `StorageError` ("... not found") and performs no write,
leaving the document unchanged; when a match exists, `update` replaces
the first matching item in place (the resulting list is the old list with
only the first matching index overwritten, so order is preserved) and
writes.  For an entity without a truthy id (`Project`, or an empty id),
`update` always raises `StorageError` ("Item must have an 'id'
attribute") and performs no write. -/
theorem C2_update_amended {T : Type} (M : PyModel T) (key : String)
    (fs : List (String × JVal)) (item : T) :
    (∀ idv, M.getattr_id item = some idv → pyTruthy idv = true →
        ((JSONFileStore.getItems (.obj fs) key).any (JSONFileStore.idMatches idv) = false →
            (JSONFileStore.update M key (.obj fs) item).doc = .obj fs ∧
            (JSONFileStore.update M key (.obj fs) item).wrote = false ∧
            (JSONFileStore.update M key (.obj fs) item).result =
              .storageError ("Item with ID " ++ pyStr idv ++ " not found")) ∧
        ((JSONFileStore.getItems (.obj fs) key).any (JSONFileStore.idMatches idv) = true →
            JSONFileStore.getItems ((JSONFileStore.update M key (.obj fs) item).doc) key =
              (JSONFileStore.getItems (.obj fs) key).set
                ((JSONFileStore.getItems (.obj fs) key).findIdx (JSONFileStore.idMatches idv))
                (.obj (M.to_dict item)) ∧
            (JSONFileStore.update M key (.obj fs) item).wrote = true ∧
            (JSONFileStore.update M key (.obj fs) item).result = .ok item)) ∧
    ((M.getattr_id item = none ∨ ∃ idv, M.getattr_id item = some idv ∧ pyTruthy idv = false) →
        (JSONFileStore.update M key (.obj fs) item).doc = .obj fs ∧
        (JSONFileStore.update M key (.obj fs) item).wrote = false ∧
        (JSONFileStore.update M key (.obj fs) item).result =
          .storageError "Item must have an id attribute") := by
  constructor
  · intro idv hid htr
    constructor
    · intro hany
      simp [JSONFileStore.update, hid, htr, replaceFirst_eq_none idv _ _ hany]
    · intro hany
      simp [JSONFileStore.update, hid, htr,
            replaceFirst_eq_set idv (.obj (M.to_dict item)) _ hany, getItems_jSet]
  · rintro (hid | ⟨idv, hid, htr⟩)
    · simp [JSONFileStore.update, hid]
    · simp [JSONFileStore.update, hid, htr]

/-- A stored task with id `"a2"`. -/
def wtask2 : Task := ⟨"a2", "Task two", "", "pending", "high", none, "Inbox", "t0", "t0"⟩

/-- The updated form of `wtask2`. -/
def wtask2v2 : Task := { wtask2 with title := "Renamed" }

theorem C2_witness :
    JSONFileStore.getItems
        ((JSONFileStore.update taskModel "items"
            (.obj [("items", .arr [.obj wtask1.to_dict, .obj wtask2.to_dict])])
            wtask2v2).doc) "items" =
      [.obj wtask1.to_dict, .obj wtask2v2.to_dict] ∧
    (JSONFileStore.update taskModel "items"
        (.obj [("items", .arr [.obj wtask1.to_dict, .obj wtask2.to_dict])])
        wtask2v2).wrote = true ∧
    (JSONFileStore.update taskModel "items"
        (.obj [("items", .arr [.obj wtask1.to_dict, .obj wtask2.to_dict])])
        wtask2v2).result = .ok wtask2v2 :=
  ((C2_update_amended taskModel "items"
      [("items", .arr [.obj wtask1.to_dict, .obj wtask2.to_dict])] wtask2v2).1
    (.str "a2") rfl rfl).2 rfl

/-- C6 counterexample: the claim says deleting a present identifier
returns `true` and decrements `count` by 1 on every CollectionStore.  On
the project store the identifier is the name, but `delete` compares only
the raw `id` field: with a project named `"Personal"` stored,
`delete("Personal")` keeps every item, returns `false` and performs no
write (which is why `ProjectService.delete` resorts to
`delete_by_field("name", ...)` instead). -/
theorem C6_counterexample :
    (JSONFileStore.delete "projects" dupProjectDoc "Personal").result = false ∧
    (JSONFileStore.delete "projects" dupProjectDoc "Personal").wrote = false ∧
    (JSONFileStore.delete "projects" dupProjectDoc "Personal").doc = dupProjectDoc :=
  ⟨rfl, rfl, rfl⟩

/-- C6 (amended): `delete(id)` matches items only by their raw `id` field
(compared as strings; identifying names of projects are never consulted):
it removes every item whose raw `id` matches, returns `true`, writes, and
decrements `count()` by exactly one when exactly one stored item carries
the id and that item parses (the unique-identifier invariant of a
well-formed collection); it returns `false` and does not rewrite the
document when no item carries the id — in particular always on a project
store.  `delete_by_field` always returns the exact number of removed
items, removes exactly the matching items when any match, and does not
rewrite the document when nothing matched. -/
theorem C6_deletion {T : Type} (M : PyModel T) (key item_id field : String) (value : JVal)
    (fs : List (String × JVal)) :
    ((((JSONFileStore.getItems (.obj fs) key).filter
          (fun it => !(JSONFileStore.keepItem item_id it))).length = 1 →
      (JSONFileStore.getItems (.obj fs) key).all
          (fun it => JSONFileStore.keepItem item_id it ||
            (M.validate (JSONFileStore.normalize_item it)).isSome) = true →
        (JSONFileStore.delete key (.obj fs) item_id).result = true ∧
        (JSONFileStore.delete key (.obj fs) item_id).wrote = true ∧
        JSONFileStore.getItems ((JSONFileStore.delete key (.obj fs) item_id).doc) key =
          (JSONFileStore.getItems (.obj fs) key).filter (JSONFileStore.keepItem item_id) ∧
        JSONFileStore.count M key ((JSONFileStore.delete key (.obj fs) item_id).doc) + 1 =
          JSONFileStore.count M key (.obj fs))) ∧
    ((JSONFileStore.getItems (.obj fs) key).all (JSONFileStore.keepItem item_id) = true →
        (JSONFileStore.delete key (.obj fs) item_id).result = false ∧
        (JSONFileStore.delete key (.obj fs) item_id).wrote = false ∧
        (JSONFileStore.delete key (.obj fs) item_id).doc = .obj fs) ∧
    ((JSONFileStore.delete_by_field key field (.obj fs) value).result =
        ((JSONFileStore.getItems (.obj fs) key).filter
          (fun it => !(JSONFileStore.keepField field value it))).length) ∧
    ((JSONFileStore.getItems (.obj fs) key).all (JSONFileStore.keepField field value) = true →
        (JSONFileStore.delete_by_field key field (.obj fs) value).wrote = false ∧
        (JSONFileStore.delete_by_field key field (.obj fs) value).doc = .obj fs) ∧
    ((JSONFileStore.getItems (.obj fs) key).any
          (fun it => !(JSONFileStore.keepField field value it)) = true →
        JSONFileStore.getItems
            ((JSONFileStore.delete_by_field key field (.obj fs) value).doc) key =
          (JSONFileStore.getItems (.obj fs) key).filter
            (JSONFileStore.keepField field value)) := by
  have hsplitI := length_filter_split (JSONFileStore.keepItem item_id)
      (JSONFileStore.getItems (.obj fs) key)
  have hsplitF := length_filter_split (JSONFileStore.keepField field value)
      (JSONFileStore.getItems (.obj fs) key)
  refine ⟨?_, ?_, ?_, ?_, ?_⟩
  · intro hlen hparse
    have hlt : ((JSONFileStore.getItems (.obj fs) key).filter
        (JSONFileStore.keepItem item_id)).length <
        (JSONFileStore.getItems (.obj fs) key).length := by omega
    refine ⟨by simp [JSONFileStore.delete, hlt], by simp [JSONFileStore.delete, hlt],
      by simp [JSONFileStore.delete, hlt, getItems_jSet], ?_⟩
    have hcount := length_filterMap_split
        (fun it => M.validate (JSONFileStore.normalize_item it))
        (JSONFileStore.keepItem item_id) (JSONFileStore.getItems (.obj fs) key)
    obtain ⟨x, hx⟩ := List.length_eq_one.mp hlen
    have hxmem : x ∈ (JSONFileStore.getItems (.obj fs) key).filter
        (fun it => !(JSONFileStore.keepItem item_id it)) := by
      rw [hx]; simp
    rw [List.mem_filter] at hxmem
    have hxparse := List.all_eq_true.mp hparse x hxmem.1
    have hxkeep : JSONFileStore.keepItem item_id x = false := by
      simpa using hxmem.2
    rw [hxkeep, Bool.false_or] at hxparse
    have hone : ((JSONFileStore.getItems (.obj fs) key).filter
        (fun it => !(JSONFileStore.keepItem item_id it))).filterMap
          (fun it => M.validate (JSONFileStore.normalize_item it)) =
        (M.validate (JSONFileStore.normalize_item x)).toList := by
      rw [hx]
      cases hv : M.validate (JSONFileStore.normalize_item x) <;> simp [hv]
    have hlenone : (((JSONFileStore.getItems (.obj fs) key).filter
        (fun it => !(JSONFileStore.keepItem item_id it))).filterMap
          (fun it => M.validate (JSONFileStore.normalize_item it))).length = 1 := by
      rw [hone]
      cases hv : M.validate (JSONFileStore.normalize_item x) with
      | none => rw [hv] at hxparse; simp at hxparse
      | some t => simp
    have hdoc : (JSONFileStore.delete key (.obj fs) item_id).doc =
        JSONFileStore.jSet (.obj fs) key
          (.arr ((JSONFileStore.getItems (.obj fs) key).filter
            (JSONFileStore.keepItem item_id))) := by
      simp [JSONFileStore.delete, hlt]
    rw [hdoc]
    simp only [JSONFileStore.count, JSONFileStore.get_all, JSONFileStore.parse_items,
      getItems_jSet]
    omega
  · intro hall
    have heq : (JSONFileStore.getItems (.obj fs) key).filter
        (JSONFileStore.keepItem item_id) = JSONFileStore.getItems (.obj fs) key :=
      List.filter_eq_self.mpr (List.all_eq_true.mp hall)
    have hnlt : ¬ ((JSONFileStore.getItems (.obj fs) key).filter
        (JSONFileStore.keepItem item_id)).length <
        (JSONFileStore.getItems (.obj fs) key).length := by
      rw [heq]; omega
    exact ⟨by simp [JSONFileStore.delete, hnlt], by simp [JSONFileStore.delete, hnlt],
      by simp [JSONFileStore.delete, hnlt]⟩
  · by_cases hc : ((JSONFileStore.getItems (.obj fs) key).filter
        (JSONFileStore.keepField field value)).length <
        (JSONFileStore.getItems (.obj fs) key).length
    · simp [JSONFileStore.delete_by_field, hc]
      omega
    · simp [JSONFileStore.delete_by_field, hc]
      omega
  · intro hall
    have heq : (JSONFileStore.getItems (.obj fs) key).filter
        (JSONFileStore.keepField field value) = JSONFileStore.getItems (.obj fs) key :=
      List.filter_eq_self.mpr (List.all_eq_true.mp hall)
    have hnlt : ¬ ((JSONFileStore.getItems (.obj fs) key).filter
        (JSONFileStore.keepField field value)).length <
        (JSONFileStore.getItems (.obj fs) key).length := by
      rw [heq]; omega
    exact ⟨by simp [JSONFileStore.delete_by_field, hnlt],
      by simp [JSONFileStore.delete_by_field, hnlt]⟩
  · intro hany
    obtain ⟨x, hxmem, hxd⟩ := List.any_eq_true.mp hany
    have hxf : x ∈ (JSONFileStore.getItems (.obj fs) key).filter
        (fun it => !(JSONFileStore.keepField field value it)) :=
      List.mem_filter.mpr ⟨hxmem, hxd⟩
    have hpos : 0 < ((JSONFileStore.getItems (.obj fs) key).filter
        (fun it => !(JSONFileStore.keepField field value it))).length :=
      List.length_pos.mpr (List.ne_nil_of_mem hxf)
    have hlt : ((JSONFileStore.getItems (.obj fs) key).filter
        (JSONFileStore.keepField field value)).length <
        (JSONFileStore.getItems (.obj fs) key).length := by omega
    simp [JSONFileStore.delete_by_field, hlt, getItems_jSet]

/-- A stored task with id `"a3"` and priority `"medium"`. -/
def wtask3 : Task := ⟨"a3", "Task three", "", "pending", "medium", none, "Inbox", "t0", "t0"⟩

/-- Fields of a collection document holding three tasks with priorities
high, high, medium. -/
def taskDoc3fields : List (String × JVal) :=
  [("items", .arr [.obj wtask1.to_dict, .obj wtask2.to_dict, .obj wtask3.to_dict])]

theorem C6_witness :
    (JSONFileStore.delete "items" (.obj taskDoc3fields) "a2").result = true ∧
    JSONFileStore.count taskModel "items"
        ((JSONFileStore.delete "items" (.obj taskDoc3fields) "a2").doc) + 1 =
      JSONFileStore.count taskModel "items" (.obj taskDoc3fields) ∧
    (JSONFileStore.delete "items" (.obj taskDoc3fields) "zz").result = false ∧
    (JSONFileStore.delete "items" (.obj taskDoc3fields) "zz").wrote = false ∧
    (JSONFileStore.delete_by_field "items" "priority" (.obj taskDoc3fields)
        (.str "high")).result = 2 ∧
    JSONFileStore.count taskModel "items"
        ((JSONFileStore.delete_by_field "items" "priority" (.obj taskDoc3fields)
          (.str "high")).doc) = 1 := by
  have h := C6_deletion taskModel "items" "a2" "priority" (JVal.str "high") taskDoc3fields
  have h2 := C6_deletion taskModel "items" "zz" "priority" (JVal.str "high") taskDoc3fields
  have hpresent := h.1 rfl rfl
  have habsent := h2.2.1 rfl
  exact ⟨hpresent.1, hpresent.2.2.2, habsent.1, habsent.2.1, h.2.2.1, rfl⟩

/-- Folding `add` over tasks whose ids are pairwise distinct and do not
match any already-stored item appends exactly their serializations. -/
theorem foldl_add_tasks (key : String) (ts : List Task) :
    ∀ fs : List (String × JVal),
      (ts.map Task.id).Nodup →
      (∀ t ∈ ts, ∀ it ∈ JSONFileStore.getItems (.obj fs) key,
          JSONFileStore.idMatches (.str t.id) it = false) →
      ∃ fs2 : List (String × JVal),
        ts.foldl (fun d t => (JSONFileStore.add taskModel key d t).doc) (.obj fs) = .obj fs2 ∧
        JSONFileStore.getItems (.obj fs2) key =
          JSONFileStore.getItems (.obj fs) key ++ ts.map (fun t => .obj t.to_dict) := by
  induction ts with
  | nil =>
    intro fs _ _
    exact ⟨fs, rfl, by simp⟩
  | cons t ts ih =>
    intro fs hnd hfresh
    rw [List.map_cons, List.nodup_cons] at hnd
    have hnomatch : (JSONFileStore.getItems (.obj fs) key).any
        (JSONFileStore.idMatches (.str t.id)) = false := by
      rw [List.any_eq_false]
      intro it hit
      simp [hfresh t (by simp) it hit]
    have hadd : (JSONFileStore.add taskModel key (.obj fs) t).doc =
        JSONFileStore.jSet (.obj fs) key
          (.arr (JSONFileStore.getItems (.obj fs) key ++ [.obj t.to_dict])) := by
      unfold JSONFileStore.add
      cases htr : pyTruthy (.str t.id) with
      | false => simp [taskModel, htr]
      | true => simp [taskModel, htr, hnomatch]
    have hitems2 : JSONFileStore.getItems
        (JSONFileStore.jSet (.obj fs) key
          (.arr (JSONFileStore.getItems (.obj fs) key ++ [.obj t.to_dict]))) key =
        JSONFileStore.getItems (.obj fs) key ++ [.obj t.to_dict] := getItems_jSet fs key _
    have hfresh2 : ∀ t' ∈ ts, ∀ it ∈ JSONFileStore.getItems
        (.obj (dictSet fs key (.arr (JSONFileStore.getItems (.obj fs) key ++ [.obj t.to_dict]))))
        key, JSONFileStore.idMatches (.str t'.id) it = false := by
      intro t' ht' it hit
      rw [show JSONFileStore.getItems
          (.obj (dictSet fs key
            (.arr (JSONFileStore.getItems (.obj fs) key ++ [.obj t.to_dict])))) key =
          JSONFileStore.getItems (.obj fs) key ++ [.obj t.to_dict] from hitems2] at hit
      rcases List.mem_append.mp hit with hold | hnew
      · exact hfresh t' (by simp [ht']) it hold
      · have : it = .obj t.to_dict := by simpa using hnew
        rw [this, idMatches_to_dict]
        have hne : t.id ≠ t'.id := by
          intro hcontr
          exact hnd.1 (hcontr ▸ List.mem_map_of_mem Task.id ht')
        simp [hne]
    obtain ⟨fs3, hfold, hitems3⟩ := ih
      (dictSet fs key (.arr (JSONFileStore.getItems (.obj fs) key ++ [.obj t.to_dict])))
      hnd.2 hfresh2
    refine ⟨fs3, ?_, ?_⟩
    · rw [List.foldl_cons, hadd]
      exact hfold
    · rw [hitems3, show JSONFileStore.getItems
        (.obj (dictSet fs key
          (.arr (JSONFileStore.getItems (.obj fs) key ++ [.obj t.to_dict])))) key =
        JSONFileStore.getItems (.obj fs) key ++ [.obj t.to_dict] from hitems2]
      simp

/-- Folding `add` over projects appends their serializations
unconditionally: `Project` has no `id` attribute, so `add` never runs its
duplicate check. -/
theorem foldl_add_projects (key : String) (ps : List Project) :
    ∀ fs : List (String × JVal),
      ∃ fs2 : List (String × JVal),
        ps.foldl (fun d p => (JSONFileStore.add projectModel key d p).doc) (.obj fs) =
          .obj fs2 ∧
        JSONFileStore.getItems (.obj fs2) key =
          JSONFileStore.getItems (.obj fs) key ++ ps.map (fun p => .obj p.to_dict) := by
  induction ps with
  | nil =>
    intro fs
    exact ⟨fs, rfl, by simp⟩
  | cons p ps ih =>
    intro fs
    have hadd : (JSONFileStore.add projectModel key (.obj fs) p).doc =
        JSONFileStore.jSet (.obj fs) key
          (.arr (JSONFileStore.getItems (.obj fs) key ++ [.obj p.to_dict])) := rfl
    obtain ⟨fs3, hfold, hitems3⟩ := ih
      (dictSet fs key (.arr (JSONFileStore.getItems (.obj fs) key ++ [.obj p.to_dict])))
    refine ⟨fs3, ?_, ?_⟩
    · rw [List.foldl_cons, hadd]
      exact hfold
    · rw [hitems3, show JSONFileStore.getItems
        (.obj (dictSet fs key
          (.arr (JSONFileStore.getItems (.obj fs) key ++ [.obj p.to_dict])))) key =
        JSONFileStore.getItems (.obj fs) key ++ [.obj p.to_dict] from getItems_jSet fs key _]
      simp

/-- Parsing a list of serialized well-formed projects recovers the
projects. -/
theorem parse_items_map_project (ps : List Project) (hwf : ∀ p ∈ ps, p.name ≠ "") :
    JSONFileStore.parse_items projectModel (ps.map (fun p => .obj p.to_dict)) = ps := by
  induction ps with
  | nil => rfl
  | cons p ps ih =>
    have hp := hwf p (by simp)
    simp only [List.map_cons, JSONFileStore.parse_items, List.filterMap_cons]
    have hv : projectModel.validate (JSONFileStore.normalize_item (.obj p.to_dict)) = some p :=
      project_validate_to_dict p hp
    simp only [projectModel] at hv ⊢
    rw [hv]
    have := ih (fun p' hp' => hwf p' (by simp [hp']))
    simpa [JSONFileStore.parse_items, projectModel] using this

/-- C8: starting from the initial empty document and adding any list of
valid entities with pairwise distinct identifiers — in particular lists of
length 0, 1 or 20 — the stored items are exactly the serialized entities,
and `get_all` (hence a freshly constructed store over the same path, since
every call re-reads the document and no state survives between calls or
instances) returns exactly those entities, equal by identifier and every
field value (equality of the `Task`/`Project` structures).  Covers both
collection stores: tasks (identifier `id`, well-formed means non-empty
title and non-legacy status) and projects (identifier `name`, well-formed
means non-empty name). -/
theorem C8_round_trip (key : String) (ts : List Task) (ps : List Project)
    (hnd : (ts.map Task.id).Nodup)
    (hwf : ∀ t ∈ ts, t.title ≠ "" ∧ t.status ≠ "active")
    (hndp : (ps.map Project.name).Nodup)
    (hwfp : ∀ p ∈ ps, p.name ≠ "") :
    (JSONFileStore.getItems
        (ts.foldl (fun d t => (JSONFileStore.add taskModel key d t).doc)
          (JSONFileStore.initialDoc key)) key = ts.map (fun t => .obj t.to_dict) ∧
     JSONFileStore.get_all taskModel key
        (ts.foldl (fun d t => (JSONFileStore.add taskModel key d t).doc)
          (JSONFileStore.initialDoc key)) = ts) ∧
    (JSONFileStore.getItems
        (ps.foldl (fun d p => (JSONFileStore.add projectModel key d p).doc)
          (JSONFileStore.initialDoc key)) key = ps.map (fun p => .obj p.to_dict) ∧
     JSONFileStore.get_all projectModel key
        (ps.foldl (fun d p => (JSONFileStore.add projectModel key d p).doc)
          (JSONFileStore.initialDoc key)) = ps) := by
  have hbase : JSONFileStore.getItems (.obj [(key, .arr [])]) key = [] :=
    getItems_initialDoc key
  constructor
  · have hfresh0 : ∀ t ∈ ts, ∀ it ∈ JSONFileStore.getItems (.obj [(key, .arr [])]) key,
        JSONFileStore.idMatches (.str t.id) it = false := by
      intro t ht it hit
      rw [hbase] at hit
      simp at hit
    obtain ⟨fs2, hfold, hitems⟩ := foldl_add_tasks key ts [(key, .arr [])] hnd hfresh0
    rw [hbase, List.nil_append] at hitems
    have hfold2 : ts.foldl (fun d t => (JSONFileStore.add taskModel key d t).doc)
        (JSONFileStore.initialDoc key) = .obj fs2 := hfold
    rw [hfold2]
    refine ⟨hitems, ?_⟩
    rw [JSONFileStore.get_all, hitems]
    exact parse_items_map_to_dict ts hwf
  · obtain ⟨fs2, hfold, hitems⟩ := foldl_add_projects key ps [(key, .arr [])]
    rw [hbase, List.nil_append] at hitems
    have hfold2 : ps.foldl (fun d p => (JSONFileStore.add projectModel key d p).doc)
        (JSONFileStore.initialDoc key) = .obj fs2 := hfold
    rw [hfold2]
    refine ⟨hitems, ?_⟩
    rw [JSONFileStore.get_all, hitems]
    exact parse_items_map_project ps hwfp

/-- A stored project named `"Work"`. -/
def wproj1 : Project := ⟨"Work", "t0"⟩

/-- A stored project named `"Home"`. -/
def wproj2 : Project := ⟨"Home", "t0"⟩

theorem C8_witness :
    JSONFileStore.getItems
        ([wtask1, wtask2].foldl (fun d t => (JSONFileStore.add taskModel "items" d t).doc)
          (JSONFileStore.initialDoc "items")) "items" =
      [.obj wtask1.to_dict, .obj wtask2.to_dict] ∧
    JSONFileStore.get_all taskModel "items"
        ([wtask1, wtask2].foldl (fun d t => (JSONFileStore.add taskModel "items" d t).doc)
          (JSONFileStore.initialDoc "items")) = [wtask1, wtask2] ∧
    JSONFileStore.get_all projectModel "projects"
        ([wproj1, wproj2].foldl (fun d p => (JSONFileStore.add projectModel "projects" d p).doc)
          (JSONFileStore.initialDoc "projects")) = [wproj1, wproj2] := by
  have h := C8_round_trip "items" [wtask1, wtask2] [] (by decide) (by decide) (by decide)
    (by decide)
  have hp := C8_round_trip "projects" [] [wproj1, wproj2] (by decide) (by decide) (by decide)
    (by decide)
  exact ⟨h.1.1, h.1.2, hp.2.2⟩

/-- C10: `add`, `update`, `delete` and `delete_by_field` leave every
top-level key other than the collection key unchanged (they assign only
`data[collection_key]` and write the same dict back), while `clear`
writes the literal document `{collection_key: []}`, discarding every
other top-level key. -/
theorem C10_extra_keys {T : Type} (M : PyModel T) (key k' : String)
    (fs : List (String × JVal)) (item : T) (item_id field : String) (value : JVal)
    (hk : k' ≠ key) :
    JSONFileStore.jGet ((JSONFileStore.add M key (.obj fs) item).doc) k' =
      JSONFileStore.jGet (.obj fs) k' ∧
    JSONFileStore.jGet ((JSONFileStore.update M key (.obj fs) item).doc) k' =
      JSONFileStore.jGet (.obj fs) k' ∧
    JSONFileStore.jGet ((JSONFileStore.delete key (.obj fs) item_id).doc) k' =
      JSONFileStore.jGet (.obj fs) k' ∧
    JSONFileStore.jGet ((JSONFileStore.delete_by_field key field (.obj fs) value).doc) k' =
      JSONFileStore.jGet (.obj fs) k' ∧
    (JSONFileStore.clear key).doc = .obj [(key, .arr [])] ∧
    JSONFileStore.jGet (JSONFileStore.clear key).doc k' = none := by
  have hpres : ∀ v : JVal, JSONFileStore.jGet (JSONFileStore.jSet (.obj fs) key v) k' =
      JSONFileStore.jGet (.obj fs) k' := fun v => jGet_jSet_ne fs key k' v hk
  refine ⟨?_, ?_, ?_, ?_, rfl, ?_⟩
  · unfold JSONFileStore.add
    cases M.getattr_id item with
    | none => simp [hpres]
    | some idv =>
      by_cases htr : pyTruthy idv = true <;>
        by_cases hany : ((JSONFileStore.getItems (.obj fs) key).any
          (JSONFileStore.idMatches idv) = true) <;>
        simp [htr, hany, hpres]
  · unfold JSONFileStore.update
    cases M.getattr_id item with
    | none => simp
    | some idv =>
      cases htr : pyTruthy idv with
      | false => simp [htr]
      | true =>
        cases hrep : JSONFileStore.replaceFirst idv (.obj (M.to_dict item))
            (JSONFileStore.getItems (.obj fs) key) with
        | none => simp [htr, hrep]
        | some l2 => simp [htr, hrep, hpres]
  · by_cases hc : ((JSONFileStore.getItems (.obj fs) key).filter
        (JSONFileStore.keepItem item_id)).length <
        (JSONFileStore.getItems (.obj fs) key).length <;>
      simp [JSONFileStore.delete, hc, hpres]
  · by_cases hc : ((JSONFileStore.getItems (.obj fs) key).filter
        (JSONFileStore.keepField field value)).length <
        (JSONFileStore.getItems (.obj fs) key).length <;>
      simp [JSONFileStore.delete_by_field, hc, hpres]
  · simp [JSONFileStore.clear, JSONFileStore.jGet, dictGet, Ne.symm hk]

theorem C10_witness :
    JSONFileStore.jGet
        ((JSONFileStore.add taskModel "items"
          (.obj [("schema", JVal.num 1), ("items", .arr [])]) wtask1).doc) "schema" =
      some (JVal.num 1) ∧
    JSONFileStore.jGet
        ((JSONFileStore.delete "items"
          (.obj [("schema", JVal.num 1), ("items", .arr [])]) "a1").doc) "schema" =
      some (JVal.num 1) ∧
    JSONFileStore.jGet (JSONFileStore.clear "items").doc "schema" = none := by
  have h := C10_extra_keys taskModel "items" "schema"
    [("schema", JVal.num 1), ("items", .arr [])] wtask1 "a1" "priority" (JVal.str "high")
    (by decide)
  exact ⟨h.1, h.2.2.1, h.2.2.2.2.2⟩

end App
